import Mathlib

/-!
Verification of the receipt-processor service (src/receipt-processor.go).

The Go program decodes a JSON receipt, scores it with `calculatePoints`
(seven additive rules), stores the scored receipt in an in-memory map under a
random hex identifier, and serves the stored score on lookup.  This file is a
shallow embedding of that program: monetary amounts parsed by the Go
`strconv.ParseFloat` are carried as exact rationals, with an explicit model of
IEEE-754 double rounding (`roundDouble`) applied where a statement depends on
the float64 rounding of a value or product; the Go `int(x)` conversion is
truncation toward zero, the Go `%` is truncating remainder, the accumulating
`int` additions of `calculatePoints` wrap at 64 bits (`wrap64`), and Go
strings are lists of runes whose `len` is their UTF-8 byte count.
-/

namespace ReceiptProcessor

/-- An item of a receipt, mirroring the Go `Item` struct
(fields `ShortDescription`, `Price`; the price is kept as a string). -/
structure Item where
  shortDescription : String
  price : String
deriving Repr, DecidableEq

/-- A receipt, mirroring the Go `Receipt` struct.  The `points` field is part
of the struct in Go (`json:"points,omitempty"`); `calculatePoints` overwrites
it, so its decoded value never reaches a client. -/
structure Receipt where
  retailer : String
  purchaseDate : String
  purchaseTime : String
  items : List Item
  total : String
  points : Int
deriving Repr, DecidableEq

/-! ### Models of the Go standard-library pieces the program uses -/

/-- the Go `unicode.IsLetter`, restricted to the Latin-1 range (code points
below 0x100), where its table marks exactly A-Z, a-z, U+00AA, U+00B5, U+00BA,
U+00C0-U+00D6, U+00D8-U+00F6 and U+00F8-U+00FF as letters.  Code points at or
above 0x100 are classified as false in this model; every input considered in
this development stays below 0x100, where the model agrees with Go. -/
def goIsLetter (c : Char) : Bool :=
  let n := c.toNat
  (0x41 ≤ n && n ≤ 0x5A) || (0x61 ≤ n && n ≤ 0x7A) ||
  n == 0xAA || n == 0xB5 || n == 0xBA ||
  (0xC0 ≤ n && n ≤ 0xD6) || (0xD8 ≤ n && n ≤ 0xF6) || (0xF8 ≤ n && n ≤ 0xFF)

/-- the Go `unicode.IsDigit` (decimal digit category Nd), restricted to the
Latin-1 range, where the only Nd code points are the ASCII digits 0-9. -/
def goIsDigit (c : Char) : Bool :=
  0x30 ≤ c.toNat && c.toNat ≤ 0x39

/-- the Go `unicode.IsSpace`, restricted to the Latin-1 range:
tab, newline, vertical tab, form feed, carriage return, space,
next line (U+0085) and no-break space (U+00A0). -/
def goIsSpace (c : Char) : Bool :=
  let n := c.toNat
  n == 0x09 || n == 0x0A || n == 0x0B || n == 0x0C || n == 0x0D ||
  n == 0x20 || n == 0x85 || n == 0xA0

/-- The number of bytes of the UTF-8 encoding of one rune: what one character
contributes to the Go `len` of a string. -/
def utf8Len (c : Char) : Nat :=
  if c.toNat < 0x80 then 1
  else if c.toNat < 0x800 then 2
  else if c.toNat < 0x10000 then 3
  else 4

/-- the Go `len` on a string: the number of bytes of its UTF-8 encoding. -/
def goStrLen (s : String) : Nat :=
  s.data.foldl (fun n c => n + utf8Len c) 0

/-- the Go `strings.TrimSpace` on the rune list of a string: strip leading and
trailing Unicode whitespace. -/
def goTrimSpace (l : List Char) : List Char :=
  ((l.dropWhile goIsSpace).reverse.dropWhile goIsSpace).reverse

/-- The digits of a numeral read left to right, as a natural number. -/
def digitsToNat (l : List Char) : Nat :=
  l.foldl (fun n c => 10 * n + (c.toNat - 0x30)) 0

/-- the Go `strconv.ParseFloat`, modelled on its plain decimal fragment
(optional sign, integer digits, optional fraction; at least one digit), with
the parsed value kept as an exact rational instead of being rounded to
float64.  Strings outside this fragment (including the ParseFloat exponent, hex
and inf/nan forms, which the receipts of this development never use) parse to
`none`, as they do in Go. -/
def parseDecimal (s : String) : Option ℚ :=
  let withSign : ℚ → List Char → Option ℚ := fun sign rest =>
    let intPart := rest.takeWhile Char.isDigit
    let rest2 := rest.dropWhile Char.isDigit
    match rest2 with
    | [] =>
        if intPart.isEmpty then none
        else some (sign * (digitsToNat intPart : ℚ))
    | '.' :: fracPart =>
        if fracPart.all Char.isDigit && !(intPart.isEmpty && fracPart.isEmpty) then
          some (sign * ((digitsToNat intPart : ℚ)
            + (digitsToNat fracPart : ℚ) / (10 ^ fracPart.length : ℚ)))
        else none
    | _ => none
  match s.data with
  | '-' :: rest => withSign (-1) rest
  | '+' :: rest => withSign 1 rest
  | rest => withSign 1 rest

/-- `total, _ := strconv.ParseFloat(s, 64)` as the Go code writes it: the
error is discarded, and on a syntax error ParseFloat returns 0.  The value
is kept as the exact decimal; where a statement depends on the float64
rounding of the parsed value or of a later product, `parseFloat64` and the
F-suffixed rules below apply that rounding explicitly. -/
def parseFloatOrZero (s : String) : ℚ :=
  (parseDecimal s).getD 0

/-- the Go conversion `int(x)` on a (finite, in-range) numeric value:
truncation toward zero. -/
def goInt (q : ℚ) : Int :=
  q.num.tdiv q.den

/-- the Go `math.Ceil` followed by the conversion `int(...)` of its integral
result: the ceiling of the rational, as an integer. -/
def goCeilInt (q : ℚ) : Int :=
  -((-q.num).fdiv q.den)

/-- Whether `y` is a leap year, as the Go `time` package computes it. -/
def isLeapYear (y : Nat) : Bool :=
  y % 4 == 0 && (y % 100 != 0 || y % 400 == 0)

/-- The number of days of month `m` of year `y`. -/
def daysInMonth (y m : Nat) : Nat :=
  if m == 2 then (if isLeapYear y then 29 else 28)
  else if m == 4 || m == 6 || m == 9 || m == 11 then 30
  else 31

/-- the Go `time.Parse("2006-01-02", s)`, reduced to the fields the program
reads: four year digits, a dash, two month digits, a dash, two day digits,
with the month in 1..12 and the day within the length of the month — Go rejects
out-of-range components.  Returns `(year, month, day)` on success. -/
def parseDate (s : String) : Option (Nat × Nat × Nat) :=
  match s.data with
  | [y1, y2, y3, y4, '-', m1, m2, '-', d1, d2] =>
      if [y1, y2, y3, y4, m1, m2, d1, d2].all Char.isDigit then
        let y := digitsToNat [y1, y2, y3, y4]
        let m := digitsToNat [m1, m2]
        let d := digitsToNat [d1, d2]
        if 1 ≤ m && m ≤ 12 && 1 ≤ d && d ≤ daysInMonth y m then
          some (y, m, d)
        else none
      else none
  | _ => none

/-- `purchaseDate.Day()` as the Go code obtains it: the day of the parsed
date, or the day of the zero `time.Time` — which is 1 (January 1, year 1) —
when `time.Parse` failed and its discarded error left the zero value. -/
def goDay (s : String) : Nat :=
  match parseDate s with
  | some ymd => ymd.2.2
  | none => 1

/-- the Go `time.Parse("15:04", s)`: one or two hour digits (0..23), a colon,
exactly two minute digits (00..59).  Returns `(hour, minute)` on success. -/
def parseTime (s : String) : Option (Nat × Nat) :=
  match s.data with
  | [h1, h2, ':', m1, m2] =>
      if [h1, h2, m1, m2].all Char.isDigit then
        let h := digitsToNat [h1, h2]
        let m := digitsToNat [m1, m2]
        if h ≤ 23 && m ≤ 59 then some (h, m) else none
      else none
  | [h1, ':', m1, m2] =>
      if [h1, m1, m2].all Char.isDigit then
        let h := digitsToNat [h1]
        let m := digitsToNat [m1, m2]
        if h ≤ 23 && m ≤ 59 then some (h, m) else none
      else none
  | _ => none

/-- The purchase time as minutes after midnight, with `time.Parse` failure
leaving the zero `time.Time` (00:00) as in the Go code, where the parse
error is discarded. -/
def goTimeMinutes (s : String) : Nat :=
  let t := (parseTime s).getD (0, 0)
  t.1 * 60 + t.2

/-! ### The seven rules of `calculatePoints` -/

/-- Rule 1 of `calculatePoints`: the Go loop appends every rune of the
retailer name that is a letter or a digit to the string
`alphanumericRetailer`. -/
def alphanumericRetailer (retailer : String) : String :=
  retailer.data.foldl
    (fun acc c => if goIsLetter c || goIsDigit c then acc.push c else acc) ""

/-- Rule 1: `points += len(alphanumericRetailer)` — the UTF-8 byte count of
the kept runes. -/
def retailerPoints (retailer : String) : Int :=
  (goStrLen (alphanumericRetailer retailer) : Int)

/-- Rule 2: 50 points if `total == float64(int(total))`, i.e. the parsed
total is an integer. -/
def roundDollarPoints (total : ℚ) : Int :=
  if total = ((goInt total : Int) : ℚ) then 50 else 0

/-- Rule 3: 25 points if `int(total*100) % 25 == 0`, computed here on the
exact rational total.  This agrees with the float64 computation whenever
the product `total*100` is exactly representable — in particular for every
concrete total appearing in the claims below; `quarterPointsF` models the
rounded product for the totals where the two differ. -/
def quarterPoints (total : ℚ) : Int :=
  if (goInt (total * 100)).tmod 25 = 0 then 25 else 0

/-- Rule 4: 5 points for every two items (`len(receipt.Items) / 2 * 5`). -/
def pairPoints (items : List Item) : Int :=
  ((items.length / 2) * 5 : Nat)

/-- Rule 5 for one item: if the trimmed description byte length is a
multiple of 3, parse the price (0 on failure), take
`int(math.Ceil(price * 0.2))` and add it when strictly positive.  The Go
literal `0.2` is modelled as the exact rational 2/10. -/
def itemDescPoints (item : Item) : Int :=
  let trimmedLength := goStrLen (String.mk (goTrimSpace item.shortDescription.data))
  if trimmedLength % 3 == 0 then
    let price := parseFloatOrZero item.price
    let itemPoints := goCeilInt (price * (2 / 10 : ℚ))
    if itemPoints > 0 then itemPoints else 0
  else 0

/-- Rule 6: 6 points if the day of the purchase date is odd. -/
def oddDayPoints (purchaseDate : String) : Int :=
  if goDay purchaseDate % 2 != 0 then 6 else 0

/-- Rule 7: 10 points if the purchase time is strictly after 14:00 and
strictly before 16:00 of the same day (`purchaseTime.After(14:00)` and
`purchaseTime.Before(16:00)`; the parsed time has zero seconds, so the
comparison is on minutes). -/
def afternoonPoints (purchaseTime : String) : Int :=
  if 14 * 60 < goTimeMinutes purchaseTime ∧ goTimeMinutes purchaseTime < 16 * 60
  then 10 else 0

/-- Reduction of a value to the range of the Go `int` — a signed 64-bit
integer on the 64-bit platforms this server runs on — i.e. wraparound
modulo 2 to the 64 at offset minus 2 to the 63, which is what every Go
arithmetic operation on `int` does on overflow. -/
def wrap64 (n : Int) : Int :=
  (n + 9223372036854775808) % 18446744073709551616 - 9223372036854775808

/-- One `points += x` statement of `calculatePoints`: a Go `int` addition,
which wraps on overflow. -/
def goAdd (points x : Int) : Int :=
  wrap64 (points + x)

/-- `calculatePoints`: the seven rule contributions accumulated into
`points` one `+=` at a time, each addition a Go `int` addition that wraps at
64 bits (the result is then stored in the `Points` field of the receipt;
see `scoreReceipt`). -/
def calculatePoints (r : Receipt) : Int :=
  let points : Int := 0
  let points := goAdd points (retailerPoints r.retailer)
  let points := goAdd points (roundDollarPoints (parseFloatOrZero r.total))
  let points := goAdd points (quarterPoints (parseFloatOrZero r.total))
  let points := goAdd points (pairPoints r.items)
  let points := r.items.foldl (fun acc item => goAdd acc (itemDescPoints item)) points
  let points := goAdd points (oddDayPoints r.purchaseDate)
  let points := goAdd points (afternoonPoints r.purchaseTime)
  points

/-- `calculatePoints(&receipt)` writes the computed total into the `Points`
field of the receipt. -/
def scoreReceipt (r : Receipt) : Receipt :=
  { r with points := calculatePoints r }

/-! ### The receipt store and the two handlers -/

/-- The in-memory store: the Go map `receipts` from identifier strings to
scored receipts, modelled as an association list in which the most recent
binding of a key shadows older ones (lookups read the newest binding, so
inserting overwrites, as a map assignment does). -/
def Store : Type := List (String × Receipt)

/-- The empty store, as created by `make(map[string]Receipt)`. -/
def emptyStore : Store := []

/-- `receipt, ok := receipts[id]`: map lookup, reading the newest binding. -/
def storeFind (store : Store) (id : String) : Option Receipt :=
  match store with
  | [] => none
  | kv :: rest => if kv.1 = id then some kv.2 else storeFind rest id

/-- `receipts[id] = receipt`: map assignment, shadowing any older binding. -/
def storeInsert (store : Store) (id : String) (r : Receipt) : Store :=
  (id, r) :: store

/-- The body of a response of the get-points handler: either the JSON
`PointsResponse` with the stored points, or an `http.Error` with its status
code and message. -/
inductive GetPointsResult where
  | ok : Int → GetPointsResult
  | httpError : Nat → String → GetPointsResult
deriving Repr, DecidableEq

/-- `ProcessReceipt` after a successful JSON decode, with the freshly
generated identifier passed in (the Go code draws it from a random source):
score the receipt, store it under the identifier, and answer with the
identifier. -/
def processReceipt (store : Store) (id : String) (r : Receipt) : Store × String :=
  let scored := scoreReceipt r
  (storeInsert store id scored, id)

/-- `GetPoints`: look the identifier up; answer the stored points on a hit
and `http.Error(w, "Invalid receipt ID", http.StatusBadRequest)` — status
400 — on a miss.  The handler never writes to the store; the returned store
is the one it leaves behind. -/
def getPoints (store : Store) (id : String) : GetPointsResult × Store :=
  match storeFind store id with
  | some receipt => (GetPointsResult.ok receipt.points, store)
  | none => (GetPointsResult.httpError 400 "Invalid receipt ID", store)

/-- The receipt of the concrete scenario of the spec: retailer "Target", one
item "Mountain Dew 12PK" at 6.49, total 6.49, bought 2022-01-01 at 13:01. -/
def targetReceipt : Receipt :=
  { retailer := "Target"
    purchaseDate := "2022-01-01"
    purchaseTime := "13:01"
    items := [⟨"Mountain Dew 12PK", "6.49"⟩]
    total := "6.49"
    points := 0 }

/-- Fuel-driven floor of the base-2 logarithm: `log2Fuel fuel n` is the
position of the leading binary digit of `n`, computed by halving, provided
`n ≤ fuel` (see `log2Fuel_spec`). -/
def log2Fuel (fuel n : Nat) : Nat :=
  match fuel with
  | 0 => 0
  | fuel + 1 => if n < 2 then 0 else log2Fuel fuel (n / 2) + 1

/-- Floor of the base-2 logarithm of a positive natural number. -/
def natLog2 (n : Nat) : Nat :=
  log2Fuel n n

/-- Floor of a rational number, as an integer. -/
def floorQ (q : ℚ) : Int :=
  q.num.fdiv q.den

/-- Round a rational to the nearest integer, ties to even — the IEEE-754
default rounding applied to a scaled significand. -/
def roundHalfEven (x : ℚ) : Int :=
  let f := floorQ x
  let r := x - ((f : Int) : ℚ)
  if r < 1 / 2 then f
  else if 1 / 2 < r then f + 1
  else if f % 2 = 0 then f else f + 1

/-- Round a positive rational to the nearest float64 value: scale into the
binade [2 to the 52, 2 to the 53), round half to even, and scale back.
Faithful for q at least 1; a q below 1 is returned unchanged (no such value
is rounded in this development). -/
def roundDoublePos (q : ℚ) : ℚ :=
  if q < 1 then q
  else
    let e := natLog2 (floorQ q).toNat
    let m := roundHalfEven (q * (2 ^ 52 : ℚ) / (2 ^ e : ℚ))
    ((m : Int) : ℚ) * (2 ^ e : ℚ) / (2 ^ 52 : ℚ)

/-- Round a rational to the nearest float64 value (round to nearest, ties
to even), by sign symmetry of IEEE-754 rounding. -/
def roundDouble (q : ℚ) : ℚ :=
  if q = 0 then 0
  else if q < 0 then -(roundDoublePos (-q))
  else roundDoublePos q

/-- the actual float64 value of `strconv.ParseFloat(s, 64)` (or 0 on a
syntax error): Go documents ParseFloat as returning the nearest float64,
rounded with IEEE-754 unbiased rounding — i.e. the correctly rounded value
of the exact decimal. -/
def parseFloat64 (s : String) : ℚ :=
  roundDouble (parseFloatOrZero s)

/-- Rule 2 on the float64 total: `total == float64(int(total))`, where the
conversion back to float64 rounds.  `total` is a float64 value (an image of
`roundDouble`). -/
def roundDollarPointsF (total : ℚ) : Int :=
  if total = roundDouble ((goInt total : Int) : ℚ) then 50 else 0

/-- Rule 3 on the float64 total: `int(total*100) % 25 == 0`, with the
float64 product `total*100` rounded to the nearest double before the
truncating conversion. -/
def quarterPointsF (total : ℚ) : Int :=
  if (goInt (roundDouble (total * 100))).tmod 25 = 0 then 25 else 0

/-! ### Helper lemmas -/

attribute [local semireducible] Rat.mul Rat.add Rat.inv Rat.sub

/-- Truncating an integer rational recovers the integer. -/
theorem goInt_intCast (n : Int) : goInt ((n : Int) : ℚ) = n := by
  simp [goInt, Rat.num_intCast, Rat.den_intCast]

/-- A nonzero multiple of 25 leaves remainder 0 under the Go remainder. -/
theorem tmod25_of_mul (k : Int) : (k * 100).tmod 25 = 0 := by
  have h : k * 100 = 25 * (k * 4) := by ring
  rw [h]
  exact Int.mul_tmod_right 25 (k * 4)

/-- Folding byte sizes over a rune list starting from `n` adds their sum. -/
theorem foldl_utf8Len (l : List Char) :
    ∀ n : Nat, l.foldl (fun a c => a + utf8Len c) n = n + (l.map utf8Len).sum := by
  induction l with
  | nil => intro n; simp
  | cons c cs ih => intro n; simp [List.foldl_cons, ih (n + utf8Len c)]; omega

/-- the Go byte length of a string is the sum of the byte sizes of its
runes. -/
theorem goStrLen_eq_sum (l : List Char) :
    goStrLen (String.mk l) = (l.map utf8Len).sum := by
  simpa using foldl_utf8Len l 0

/-- Pushing a rune onto a string appends it to the rune list. -/
theorem string_push_data (s : String) (c : Char) :
    (s.push c).data = s.data ++ [c] := rfl

/-- The rune-filtering loop of rule 1 keeps exactly the runes that pass the
letter-or-digit test, in order. -/
theorem foldl_push_data (p : Char → Bool) (l : List Char) :
    ∀ acc : String,
      (l.foldl (fun acc c => if p c then acc.push c else acc) acc).data
        = acc.data ++ l.filter p := by
  induction l with
  | nil => intro acc; simp
  | cons c cs ih =>
      intro acc
      cases hc : p c
      · simp [List.foldl_cons, hc, ih]
      · simp [List.foldl_cons, hc, ih, string_push_data]

/-- Claim C1, counterexample: on the receipt of the concrete scenario
(retailer "Target", one item "Mountain Dew 12PK" at 6.49, total 6.49, date
2022-01-01, time 13:01), `calculatePoints` does not return 14. -/
theorem targetScenario_ne_14 : calculatePoints targetReceipt ≠ 14 := by decide

/-- Claim C1, amended: the scenario receipt scores exactly 12 points
(6 for the retailer alphanumerics and 6 for the odd day); the
description-length rule contributes nothing, because the trimmed length of
"Mountain Dew 12PK" is 17 — not 18 as the spec counts — and 17 is not
divisible by 3. -/
theorem targetScenario_points_12 :
    calculatePoints targetReceipt = 12
      ∧ goStrLen (String.mk (goTrimSpace ("Mountain Dew 12PK").data)) = 17
      ∧ ¬ 3 ∣ (17 : Nat) := by decide

/-- Claim C2, counterexample: the total "abc" fails to parse, yet rules 2
and 3 both contribute nonzero points — the discarded ParseFloat error leaves
the total 0, which is a round dollar amount and a multiple of 0.25. -/
theorem unparseableTotal_bonus_ne_zero :
    parseDecimal "abc" = none
      ∧ roundDollarPoints (parseFloatOrZero "abc") ≠ 0
      ∧ quarterPoints (parseFloatOrZero "abc") ≠ 0 := by decide

/-- Claim C2, amended: for every receipt whose total string fails to parse,
the total is treated as 0, so rule 2 contributes its full 50 points and
rule 3 its full 25 points. -/
theorem unparseableTotal_rules23_full_bonus (s : String)
    (h : parseDecimal s = none) :
    roundDollarPoints (parseFloatOrZero s) = 50
      ∧ quarterPoints (parseFloatOrZero s) = 25 := by
  have h0 : parseFloatOrZero s = 0 := by simp [parseFloatOrZero, h]
  rw [h0]
  exact ⟨by decide, by decide⟩

/-- Claim C2, witness: the amended statement at the unparseable total
"12abc". -/
theorem unparseableTotal_rules23_full_bonus_witness :
    roundDollarPoints (parseFloatOrZero "12abc") = 50
      ∧ quarterPoints (parseFloatOrZero "12abc") = 25 :=
  unparseableTotal_rules23_full_bonus "12abc" (by decide)

/-- Claim C3, counterexample: the purchase date "not-a-date" fails to parse,
yet rule 6 contributes nonzero points — the discarded parse error leaves the
zero time value, whose day of month is 1, an odd day. -/
theorem unparseableDate_rule6_ne_zero :
    parseDate "not-a-date" = none ∧ oddDayPoints "not-a-date" ≠ 0 := by decide

/-- Claim C3, amended: for every receipt whose purchase date string fails to
parse, rule 6 contributes its full 6 points, because the zero `time.Time`
has day of month 1, which is odd. -/
theorem unparseableDate_rule6_six (s : String) (h : parseDate s = none) :
    oddDayPoints s = 6 := by
  simp [oddDayPoints, goDay, h]

/-- Claim C3, witness: the amended statement at the date "2022-13-01",
rejected because there is no month 13. -/
theorem unparseableDate_rule6_six_witness : oddDayPoints "2022-13-01" = 6 :=
  unparseableDate_rule6_six "2022-13-01" (by decide)

/-- Claim C4, counterexample: an item whose description trims to empty and
whose price is 6.49 contributes a nonzero amount (2 points) under rule 5:
the trimmed length 0 passes the divisible-by-3 test and the positive ceiling
is added. -/
theorem emptyDescription_contributes :
    goTrimSpace ("   ").data = []
      ∧ itemDescPoints ⟨"   ", "6.49"⟩ ≠ 0
      ∧ itemDescPoints ⟨"   ", "6.49"⟩ = 2 := by decide

/-- Claim C4, amended: for every item whose description strips to the empty
string, the trimmed length 0 passes the divisible-by-3 test, so rule 5
contributes `ceil(price * 0.2)` whenever that value is positive — not zero
points. -/
theorem emptyDescription_rule5_positive (item : Item)
    (h : goTrimSpace item.shortDescription.data = [])
    (hp : 0 < goCeilInt (parseFloatOrZero item.price * (2 / 10 : ℚ))) :
    itemDescPoints item
      = goCeilInt (parseFloatOrZero item.price * (2 / 10 : ℚ)) := by
  simp only [itemDescPoints, h]
  split
  · rfl
  · next h2 => exact absurd rfl h2

/-- Claim C4, witness: the amended statement at an all-whitespace
description with price 6.49, whose contribution is the positive ceiling. -/
theorem emptyDescription_rule5_positive_witness :
    itemDescPoints ⟨" ", "6.49"⟩
      = goCeilInt (parseFloatOrZero "6.49" * (2 / 10 : ℚ)) :=
  emptyDescription_rule5_positive ⟨" ", "6.49"⟩ (by decide) (by decide)

/-- Claim C5, counterexample: the retailer name "é" consists of exactly one
letter rune, but the retailer rule contributes 2 points, not 1 — the Go code
counts the bytes of the rebuilt string, and é occupies two UTF-8 bytes. -/
theorem retailerPoints_ne_char_count :
    (("é").data.filter (fun c => goIsLetter c || goIsDigit c)).length = 1
      ∧ retailerPoints "é" ≠ 1 := by decide

/-- Claim C5, amended: the retailer rule contributes one point per UTF-8
byte of every retailer character classified as a letter or digit (so one
point per character only when those characters are ASCII; a two-byte letter
such as é contributes 2). -/
theorem retailerPoints_utf8_bytes (retailer : String) :
    retailerPoints retailer
      = (((retailer.data.filter (fun c => goIsLetter c || goIsDigit c)).map
          utf8Len).sum : Int) := by
  have hdata : (alphanumericRetailer retailer).data
      = retailer.data.filter (fun c => goIsLetter c || goIsDigit c) := by
    rw [alphanumericRetailer, foldl_push_data]
    rfl
  have hlen : goStrLen (alphanumericRetailer retailer)
      = ((retailer.data.filter (fun c => goIsLetter c || goIsDigit c)).map
          utf8Len).sum := by
    rw [goStrLen, hdata]
    simpa using foldl_utf8Len
      (retailer.data.filter (fun c => goIsLetter c || goIsDigit c)) 0
  rw [retailerPoints, hlen]

/-- Claim C6: for a receipt whose purchase time parses, the afternoon rule
awards exactly 10 points when the time is strictly between 14:00 and 16:00,
and 0 otherwise; in particular 14:00 and 16:00 earn nothing and 15:00 earns
the bonus. -/
theorem afternoonWindow_strict :
    (∀ (s : String) (h m : Nat), parseTime s = some (h, m) →
      (afternoonPoints s = 10
        ↔ 14 * 60 < h * 60 + m ∧ h * 60 + m < 16 * 60))
    ∧ afternoonPoints "14:00" = 0
    ∧ afternoonPoints "16:00" = 0
    ∧ afternoonPoints "15:00" = 10 := by
  refine ⟨?_, by decide, by decide, by decide⟩
  intro s h m hp
  have hmin : goTimeMinutes s = h * 60 + m := by simp [goTimeMinutes, hp]
  by_cases hc : 14 * 60 < h * 60 + m ∧ h * 60 + m < 16 * 60
  · simp [afternoonPoints, hmin, hc]
  · simp [afternoonPoints, hmin, hc]

/-- Claim C6, witness: the window rule applied at the concrete time 15:30,
which parses to hour 15 and minute 30 and is inside the open window. -/
theorem afternoonWindow_strict_witness : afternoonPoints "15:30" = 10 :=
  (afternoonWindow_strict.1 "15:30" 15 30 (by decide)).mpr (by decide)

/-- Claim C7: submitting a decoded receipt and looking the returned
identifier up yields exactly the points that `calculatePoints` computes for
that receipt, whatever the store already held. -/
theorem submit_lookup_roundTrip (store : Store) (id : String) (r : Receipt) :
    (getPoints (processReceipt store id r).1 (processReceipt store id r).2).1
      = GetPointsResult.ok (calculatePoints r) := by
  simp [processReceipt, getPoints, storeFind, storeInsert, scoreReceipt]

/-- Claim C8: looking up an identifier that the store does not hold answers
the fixed 400 response "Invalid receipt ID" and leaves the store
unchanged. -/
theorem getPoints_unknown_id (store : Store) (id : String)
    (h : storeFind store id = none) :
    getPoints store id
      = (GetPointsResult.httpError 400 "Invalid receipt ID", store) := by
  simp [getPoints, h]

/-- Claim C8, witness: the unknown-identifier response on the empty store at
a concrete identifier that was never issued. -/
theorem getPoints_unknown_id_witness :
    getPoints emptyStore "deadbeefdeadbeefdeadbeefdeadbeef"
      = (GetPointsResult.httpError 400 "Invalid receipt ID", emptyStore) :=
  getPoints_unknown_id emptyStore "deadbeefdeadbeefdeadbeefdeadbeef" rfl

/-! ### Wraparound and float-rounding lemmas -/

/-- `log2Fuel` finds the leading-digit position when given enough fuel. -/
theorem log2Fuel_spec :
    ∀ (fuel n : Nat), 1 ≤ n → n ≤ fuel →
      2 ^ log2Fuel fuel n ≤ n ∧ n < 2 ^ (log2Fuel fuel n + 1) := by
  intro fuel
  induction fuel with
  | zero => intro n h1 h2; omega
  | succ fuel ih =>
      intro n h1 h2
      simp only [log2Fuel]
      by_cases hn : n < 2
      · rw [if_pos hn]
        constructor
        · simpa using h1
        · simpa using hn
      · rw [if_neg hn]
        obtain ⟨ha, hb⟩ := ih (n / 2) (by omega) (by omega)
        have e1 : (2:ℕ) ^ (log2Fuel fuel (n / 2) + 1)
            = 2 * 2 ^ log2Fuel fuel (n / 2) := by
          rw [pow_succ]; ring
        have e2 : (2:ℕ) ^ (log2Fuel fuel (n / 2) + 1 + 1)
            = 2 * 2 ^ (log2Fuel fuel (n / 2) + 1) := by
          rw [pow_succ]; ring
        omega

/-- `natLog2 n` is the position of the leading binary digit of a positive
`n`. -/
theorem natLog2_spec (n : Nat) (h : 1 ≤ n) :
    2 ^ natLog2 n ≤ n ∧ n < 2 ^ (natLog2 n + 1) :=
  log2Fuel_spec n n h (Nat.le_refl n)

/-- The floor of an integer rational is the integer. -/
theorem floorQ_intCast (n : Int) : floorQ ((n : Int) : ℚ) = n := by
  rw [floorQ, Rat.num_intCast, Rat.den_intCast]
  simp [Int.fdiv_one]

/-- Rounding half to even fixes every integer. -/
theorem roundHalfEven_intCast (n : Int) :
    roundHalfEven ((n : Int) : ℚ) = n := by
  simp only [roundHalfEven, floorQ_intCast, sub_self]
  rw [if_pos (by norm_num)]

/-- Float64 rounding fixes every positive integer below 2 to the 53: such
integers are exactly representable. -/
theorem roundDoublePos_intCast (n : Int) (h1 : 1 ≤ n)
    (h53 : n.natAbs < 2 ^ 53) :
    roundDoublePos ((n : Int) : ℚ) = ((n : Int) : ℚ) := by
  have hnlt : ¬ ((n : ℚ) < 1) := by
    rw [not_lt]
    exact_mod_cast h1
  rw [roundDoublePos, if_neg hnlt]
  simp only [floorQ_intCast]
  obtain ⟨hs1, hs2⟩ := natLog2_spec n.toNat (by omega)
  set l := natLog2 n.toNat with hl
  have hl52 : l ≤ 52 := by
    by_contra hgt
    have hpow : (2:ℕ) ^ 53 ≤ 2 ^ l := Nat.pow_le_pow_right (by norm_num) (by omega)
    omega
  have h2e : ((2:ℚ) ^ l) ≠ 0 := by positivity
  have h252 : ((2:ℚ) ^ 52) ≠ 0 := by positivity
  have hscaled : (n : ℚ) * (2 ^ 52 : ℚ) / (2 ^ l : ℚ)
      = ((n * 2 ^ (52 - l) : Int) : ℚ) := by
    rw [div_eq_iff h2e]
    push_cast
    rw [mul_assoc, ← pow_add, Nat.sub_add_cancel hl52]
  rw [hscaled, roundHalfEven_intCast, div_eq_iff h252]
  push_cast
  rw [mul_assoc, ← pow_add, Nat.sub_add_cancel hl52]

/-- Float64 rounding fixes every integer of magnitude below 2 to the 53. -/
theorem roundDouble_intCast (n : Int) (h53 : n.natAbs < 2 ^ 53) :
    roundDouble ((n : Int) : ℚ) = ((n : Int) : ℚ) := by
  rcases lt_trichotomy n 0 with hneg | hzero | hpos
  · have hne : ((n : Int) : ℚ) ≠ 0 := by
      simpa using (by omega : n ≠ 0)
    have hlt : ((n : Int) : ℚ) < 0 := by exact_mod_cast hneg
    rw [roundDouble, if_neg hne, if_pos hlt]
    have hcast : (-((n : Int) : ℚ)) = ((-n : Int) : ℚ) := by push_cast; ring
    rw [hcast, roundDoublePos_intCast (-n) (by omega)
      (by rw [Int.natAbs_neg]; exact h53)]
    push_cast
    ring
  · subst hzero
    simp [roundDouble]
  · have hne : ((n : Int) : ℚ) ≠ 0 := by
      simpa using (by omega : n ≠ 0)
    have hlt : ¬ (((n : Int) : ℚ) < 0) := by
      rw [not_lt]
      exact_mod_cast (by omega : (0:Int) ≤ n)
    rw [roundDouble, if_neg hne, if_neg hlt]
    exact roundDoublePos_intCast n (by omega) h53

/-- Claim C10, counterexample: for the total 9007199254740994 — 2 to the 53
plus 2, exactly representable in float64 — rule 2 fires, but rule 3 does
not: the float64 product total*100 rounds to 900719925474099456 (the exact
product 900719925474099400 lies above the midpoint of its binade step of
128), and that integer leaves remainder 6 modulo 25.  The implication of
the claim is false on the float64 arithmetic the program uses. -/
theorem roundDollarF_without_quarterF :
    roundDollarPointsF (parseFloat64 "9007199254740994") = 50
      ∧ quarterPointsF (parseFloat64 "9007199254740994") = 0
      ∧ goInt (roundDouble (parseFloat64 "9007199254740994" * 100))
          = 900719925474099456 := by decide

/-- Claim C10, amended: for every float64 total that is an integer of
magnitude at most 2 to the 46 — so that the float64 product total*100 is
exactly representable — rule 2 fires and rule 3 fires with it, and the two
rules together contribute 75 points.  The counterexample above shows the
magnitude restriction is forced. -/
theorem roundDollarF_implies_quarterF (total : ℚ) (k : Int)
    (hk : total = ((k : Int) : ℚ)) (hb : k.natAbs ≤ 2 ^ 46) :
    roundDollarPointsF total = 50 ∧ quarterPointsF total = 25
      ∧ roundDollarPointsF total + quarterPointsF total = 75 := by
  have e46 : (2:ℕ) ^ 46 = 70368744177664 := by norm_num
  have e53 : (2:ℕ) ^ 53 = 9007199254740992 := by norm_num
  have hb53 : k.natAbs < 2 ^ 53 := by omega
  have h100 : (k * 100).natAbs < 2 ^ 53 := by
    have habs : (k * 100).natAbs = k.natAbs * 100 := by
      rw [Int.natAbs_mul]
      rfl
    omega
  have hgi : goInt total = k := by
    rw [hk]
    exact goInt_intCast k
  have h50 : roundDollarPointsF total = 50 := by
    rw [roundDollarPointsF, hgi, roundDouble_intCast k hb53, ← hk, if_pos rfl]
  have hprod : total * 100 = ((k * 100 : Int) : ℚ) := by
    rw [hk]
    push_cast
    ring
  have h25 : quarterPointsF total = 25 := by
    rw [quarterPointsF, hprod, roundDouble_intCast _ h100, goInt_intCast,
      tmod25_of_mul, if_pos rfl]
  refine ⟨h50, h25, ?_⟩
  rw [h50, h25]
  norm_num

/-- Claim C10, witness: the amended statement at the float64 total parsed
from "100.00", an integral total far below the bound. -/
theorem roundDollarF_implies_quarterF_witness :
    roundDollarPointsF (parseFloat64 "100.00") = 50
      ∧ quarterPointsF (parseFloat64 "100.00") = 25
      ∧ roundDollarPointsF (parseFloat64 "100.00")
          + quarterPointsF (parseFloat64 "100.00") = 75 :=
  roundDollarF_implies_quarterF (parseFloat64 "100.00") 100 (by decide) (by decide)

end ReceiptProcessor
